import Mathlib

/-!
Verification of the schema-detection-and-normalization engine of
`slop-grapher` (`src/reader.py`).

The Python source is shallowly embedded below.  Pandas dataframes are
modelled as a list of column names together with a list of rows (each row a
list of cell values); Python exceptions are modelled by `Except Unit`;
the filesystem side effects (the `filenames.txt` log and the
`data.feather` cache) are modelled by an explicit `IngestState` record that
every stateful operation threads through.  The pandas primitives that the
source calls (`pivot`, `concat`, `sort_values`, `drop_duplicates`,
`read_csv`, `to_datetime`) are modelled directly, at the granularity the
source exercises them.
-/

/-- A single dataframe cell: a raw string, a number, a parsed chronological
instant, or a missing value (NaN). -/
inductive Value where
  | str (s : String)
  | num (n : Int)
  | ts (n : Nat)
  | na
deriving DecidableEq, Repr

/-- A dataframe: named columns and rows of cells (row-major). -/
structure DF where
  cols : List String
  rows : List (List Value)
deriving DecidableEq, Repr

-- ---------- Kernel-computable string helpers (used instead of the
-- ---------- `String` library functions, which do not reduce well).

/-- Split a character list at every occurrence of `sep`. -/
def splitOnChar (sep : Char) : List Char → List (List Char)
  | [] => [[]]
  | c :: rest =>
    let r := splitOnChar sep rest
    if c = sep then [] :: r
    else
      match r with
      | [] => [[c]]
      | h :: t => (c :: h) :: t

/-- Split a string at every occurrence of the character `sep`. -/
def splitStr (s : String) (sep : Char) : List String :=
  (splitOnChar sep s.toList).map String.mk

/-- Does `pat` occur at the head of the text? -/
def leadsWith : List Char → List Char → Bool
  | [], _ => true
  | _ :: _, [] => false
  | a :: as, b :: bs => a = b && leadsWith as bs

/-- Does `pat` occur anywhere in the text? -/
def hasSub (pat : List Char) : List Char → Bool
  | [] => leadsWith pat []
  | c :: rest => leadsWith pat (c :: rest) || hasSub pat rest

/-- Python's `sub in s` substring test. -/
def strContainsSub (s pat : String) : Bool := hasSub pat.toList s.toList

/-- ASCII whitespace recognizer (the characters Python's `str.strip`
removes on the data this program sees). -/
def isSpaceChar (c : Char) : Bool := c = ' ' || c = '\t' || c = '\n' || c = '\r'

/-- Python's `str.strip`. -/
def strStrip (s : String) : String :=
  String.mk (((s.toList.dropWhile isSpaceChar).reverse.dropWhile isSpaceChar).reverse)

/-- `"\n".join(lines)`. -/
def joinNewline : List String → String
  | [] => ""
  | [l] => l
  | l :: rest => l ++ "\n" ++ joinNewline rest

/-- Code-point lexicographic order on character lists (the order pandas and
Python use when sorting the strings this program sorts). -/
def lexLe : List Char → List Char → Bool
  | [], _ => true
  | _ :: _, [] => false
  | a :: as, b :: bs => if a = b then lexLe as bs else decide (a < b)

-- ---------- Orders and generic list machinery

/-- Rank used to compare cells of different kinds; `na` sorts last, which
models pandas' `na_position='last'` default in `sort_values`. -/
def valRank : Value → Nat
  | .num _ => 0
  | .ts _ => 1
  | .str _ => 2
  | .na => 3

/-- Total comparison on cells: same-kind cells compare by payload,
different kinds by `valRank`. -/
def valLe (a b : Value) : Bool :=
  match a, b with
  | .num x, .num y => decide (x ≤ y)
  | .ts x, .ts y => decide (x ≤ y)
  | .str x, .str y => lexLe x.toList y.toList
  | _, _ => decide (valRank a ≤ valRank b)

/-- Insert into a `le`-sorted list, keeping it sorted. -/
def insertSortedBy (le : α → α → Bool) (a : α) : List α → List α
  | [] => [a]
  | b :: l => if le a b then a :: b :: l else b :: insertSortedBy le a l

/-- Insertion sort.  Models the result of pandas `sort_values`: the claims
proved below are insensitive to which (possibly unstable) sort pandas
uses, they only need sortedness, and membership. -/
def insSortBy (le : α → α → Bool) : List α → List α
  | [] => []
  | a :: l => insertSortedBy le a (insSortBy le l)

/-- Keep-first deduplication with an accumulator of already-seen elements;
`dedupFirst` below models pandas `drop_duplicates()` (keep='first'). -/
def dedupAux [DecidableEq α] (seen : List α) : List α → List α
  | [] => []
  | a :: l => if a ∈ seen then dedupAux seen l else a :: dedupAux (a :: seen) l

/-- pandas `drop_duplicates()`: remove later exact duplicates. -/
def dedupFirst [DecidableEq α] (l : List α) : List α := dedupAux [] l

/-- `Option` to `Except`, modelling a Python KeyError/IndexError on a
failed lookup. -/
def exceptOfOpt : Option α → Except Unit α
  | some a => .ok a
  | none => .error ()

/-- Error-propagating map over a list (Python: elementwise application
where the first raised exception propagates). -/
def mapME (f : α → Except Unit β) : List α → Except Unit (List β)
  | [] => .ok []
  | a :: l =>
    match f a with
    | .error e => .error e
    | .ok b =>
      match mapME f l with
      | .error e => .error e
      | .ok bs => .ok (b :: bs)

/-- Is an `Except` a success? -/
def isOkE : Except ε α → Bool
  | .ok _ => true
  | .error _ => false

-- ---------- Timestamp parsing (models `pd.to_datetime` at the precision
-- ---------- the source exercises it: `YYYY-MM-DD HH:MM:SS[.f]` strings)

/-- All characters are ASCII digits. -/
def allDigits (l : List Char) : Bool := l.all Char.isDigit

/-- Digits to a natural number, most significant first. -/
def digitsToNat (l : List Char) : Nat := l.foldl (fun acc c => acc * 10 + (c.toNat - 48)) 0

/-- Decompose a `YYYY-MM-DD HH:MM:SS` or `YYYY-MM-DD HH:MM:SS.f` string
into its 14 date-time digit characters and optional fraction digit. -/
def tsShape (s : String) : Option (List Char × Option Char) :=
  match s.toList with
  | [y1,y2,y3,y4,'-',o1,o2,'-',d1,d2,' ',h1,h2,':',m1,m2,':',c1,c2] =>
      some ([y1,y2,y3,y4,o1,o2,d1,d2,h1,h2,m1,m2,c1,c2], none)
  | [y1,y2,y3,y4,'-',o1,o2,'-',d1,d2,' ',h1,h2,':',m1,m2,':',c1,c2,'.',f] =>
      some ([y1,y2,y3,y4,o1,o2,d1,d2,h1,h2,m1,m2,c1,c2], some f)
  | _ => none

/-- Parse a timestamp string to an abstract chronological instant
(digit-concatenation encoding, monotone in chronological order for this
fixed format).  `none` models a `pd.to_datetime` parse failure. -/
def parseTs (s : String) : Option Nat :=
  match tsShape s with
  | some (ds, f) =>
    if allDigits ds && (match f with | some c => c.isDigit | none => true) then
      some (digitsToNat ds * 10 + (match f with | some c => c.toNat - 48 | none => 0))
    else none
  | none => none

/-- `pd.to_datetime` on one cell: parse strings, pass through already
chronological cells and missing values, fail on anything else. -/
def toDatetimeCell : Value → Except Unit Value
  | .str s =>
    match parseTs s with
    | some n => .ok (.ts n)
    | none => .error ()
  | .ts n => .ok (.ts n)
  | .na => .ok .na
  | .num _ => .error ()

/-- The regex `^\d\x7b4\x7d-\d\x7b2\x7d-\d\x7b2\x7d \d\x7b2\x7d:\d\x7b2\x7d:\d\x7b2\x7d\.\d$`
of `_schema_2_pred` (`re.match`'s `$` also accepts one trailing newline). -/
def matchesDegasTs (s : String) : Bool :=
  match s.toList with
  | [y1,y2,y3,y4,'-',o1,o2,'-',d1,d2,' ',h1,h2,':',m1,m2,':',c1,c2,'.',f] =>
      allDigits [y1,y2,y3,y4,o1,o2,d1,d2,h1,h2,m1,m2,c1,c2,f]
  | [y1,y2,y3,y4,'-',o1,o2,'-',d1,d2,' ',h1,h2,':',m1,m2,':',c1,c2,'.',f,'\n'] =>
      allDigits [y1,y2,y3,y4,o1,o2,d1,d2,h1,h2,m1,m2,c1,c2,f]
  | _ => false

-- ---------- Dataframe helpers

/-- Position of a column label, `df.columns.get_loc` style. -/
def colIdx (df : DF) (c : String) : Option Nat := df.cols.findIdx? (fun x => x = c)

/-- pandas `df.empty`: true when either axis has length zero. -/
def dfEmpty (df : DF) : Bool := df.rows.isEmpty || df.cols.isEmpty

/-- `df[c] = df[c].map f` with error propagation; reading a missing column
raises KeyError.  Models `df[c] = pd.to_datetime(df[c])` when `f` is
`toDatetimeCell`. -/
def mapColumnM (df : DF) (c : String) (f : Value → Except Unit Value) : Except Unit DF :=
  match colIdx df c with
  | none => .error ()
  | some i =>
    match mapME (fun r =>
        match f (r.getD i Value.na) with
        | .error e => .error e
        | .ok v => .ok (r.set i v)) df.rows with
    | .error e => .error e
    | .ok rows => .ok ⟨df.cols, rows⟩

-- ---------- `pivot_iontech` (src/reader.py lines 10-24)

/-- The fixed rename lookup of `pivot_iontech`; unmapped identifiers pass
through unchanged. -/
def renameIon (s : String) : String :=
  if s = "Analog_PC_CIT101.Analog_out" then "Salt Conductivity (ms/cm)"
  else if s = "Analog_PC_CIT102.Analog_out" then "Acid Conductivity (ms/cm)"
  else if s = "Analog_PC_CIT103.Analog_out" then "Base Conductivity (ms/cm)"
  else if s = "Analog_PC_HFK101_II.Analog_out" then "PS Current (Amps)"
  else if s = "Analog_PC_HFK101_UI.Analog_out" then "PS Voltage (Volts)"
  else if s = "Analog_PC_TI101.Analog_out" then "Acid? Temperature (C)"
  else if s = "Analog_PC_TI102.Analog_out" then "Base? Temperature (C)"
  else if s = "Analog_PC_TI103.Analog_out" then "Salt? Temperature (C)"
  else if s = "Analog_PC_TI104.Analog_out" then "Electrolyte? Temperature (C)"
  else s

/-- pandas column labels are arbitrary values; render one as a string
label (the VarName cells this program pivots on are strings). -/
def labelStr : Value → String
  | .str s => s
  | .num n => toString n
  | .ts n => toString n
  | .na => "nan"

/-- Any pair occurring twice? (`df.pivot` raises on a duplicate
(index, column) pair.) -/
def pairsDup [DecidableEq α] : List α → Bool
  | [] => false
  | a :: l => decide (a ∈ l) || pairsDup l

/-- Sorted unique values, ascending — the index and column order `pivot`
(via `unstack`) produces. -/
def sortDedupVals (l : List Value) : List Value := insSortBy valLe (dedupFirst l)

/-- `pivot_iontech`:
`df.pivot(index='TimeString', columns='VarName', values='VarValue')`,
rename via `renameIon`, `drop(columns=["$RT_DIS$"])` (KeyError when the
column is absent), `reset_index(names="Timestamp")`. -/
def pivot_iontech (df : DF) : Except Unit DF :=
  match colIdx df "TimeString", colIdx df "VarName", colIdx df "VarValue" with
  | some iT, some iN, some iV =>
    let triples := df.rows.map (fun r =>
      (r.getD iT Value.na, r.getD iN Value.na, r.getD iV Value.na))
    if pairsDup (triples.map (fun t => (t.1, t.2.1))) then .error ()
    else
      let idxVals := sortDedupVals (triples.map (fun t => t.1))
      let colVals := sortDedupVals (triples.map (fun t => t.2.1))
      let renamed := colVals.map (fun v => renameIon (labelStr v))
      if "$RT_DIS$" ∈ renamed then
        let cellOf := fun iv cv =>
          match triples.find? (fun t => decide (t.1 = iv) && decide (t.2.1 = cv)) with
          | some t => t.2.2
          | none => Value.na
        let keptCols := renamed.filter (fun c => c ≠ "$RT_DIS$")
        let rows := idxVals.map (fun iv =>
          iv :: ((colVals.zip renamed).filter (fun p => p.2 ≠ "$RT_DIS$")).map
            (fun p => cellOf iv p.1))
        .ok ⟨"Timestamp" :: keptCols, rows⟩
      else .error ()
  | _, _, _ => .error ()

-- ---------- Raw Table Loader `_read_file` (src/reader.py lines 26-50)

/-- `os.path.splitext(p)[1]`: the extension of the basename, leading dots
of the basename not counting as separators. -/
def ext_of (p : String) : String :=
  let base := (splitStr p '/').getLastD ""
  let cs := base.toList
  let lead := (cs.takeWhile (fun c => c = '.')).length
  let parts := splitOnChar '.' (cs.drop lead)
  match parts with
  | [] => ""
  | [_] => ""
  | _ => "." ++ String.mk (parts.getLastD [])

/-- Abstract content of one on-disk file: its text lines as decoded by the
default-encoding CSV reader, and the (opaque) outcome of the second,
UTF-16 tab-separated parsing strategy, which reads the same bytes under a
different decoding and so is not derivable from `lines`. -/
structure FileContent where
  lines : List String
  tsvRead : Except Unit DF

/-- `pd.read_csv` at the precision this program needs: first line is the
header, cells are kept as raw strings (the docstring's "Everything as
string"), `nrows` caps the number of parsed data rows (errors past the cap
are invisible, as in pandas), an empty file or a ragged row is an error. -/
def read_csv (lines : List String) (nrows : Option Nat) : Except Unit DF :=
  match lines with
  | [] => .error ()
  | header :: dataLines =>
    let cols := splitStr header ','
    let use := match nrows with | some n => dataLines.take n | none => dataLines
    let rows := use.map (fun l => (splitStr l ',').map Value.str)
    if rows.all (fun r => r.length = cols.length) then .ok ⟨cols, rows⟩ else .error ()

/-- `_read_file`: for `.txt`, try `pd.read_csv(p, nrows=4)` and on any
exception fall back to the UTF-16 TSV strategy, re-raising its failure;
for `.csv`, a single direct parse, re-raising failure; any other
extension falls off the end of the function and returns `None`
(modelled as `.ok none`). -/
def _read_file (p : String) (fc : FileContent) : Except Unit (Option DF) :=
  if ext_of p = ".txt" then
    match read_csv fc.lines (some 4) with
    | .ok df => .ok (some df)
    | .error _ =>
      match fc.tsvRead with
      | .ok df => .ok (some df)
      | .error e => .error e
  else if ext_of p = ".csv" then
    match read_csv fc.lines none with
    | .ok df => .ok (some df)
    | .error e => .error e
  else .ok none

-- ---------- Schema definition (src/reader.py lines 54-86)

/-- A schema descriptor: name, match predicate (which may raise), optional
normalizer (which may raise). -/
structure Schema where
  name : String
  predicate : DF → Except Unit Bool
  normalizer : Option (DF → Except Unit DF) := none

/-- `_schema_1_pred`: `df.columns[0] == 'VarName' and df.columns[1] ==
'TimeString'`, where indexing past the end of `columns` raises. -/
def _schema_1_pred (df : DF) : Except Unit Bool :=
  match df.cols with
  | [] => .error ()
  | [c0] => if c0 ≠ "VarName" then .ok false else .error ()
  | c0 :: c1 :: _ =>
    if c0 ≠ "VarName" then .ok false
    else .ok (c1 = "TimeString")

/-- `_schema_2_pred`: regex-match the first `Timestamp` cell; a missing
column, an empty frame, or a non-string cell raises. -/
def _schema_2_pred (df : DF) : Except Unit Bool :=
  match colIdx df "Timestamp" with
  | none => .error ()
  | some i =>
    match df.rows with
    | [] => .error ()
    | r :: _ =>
      match r.getD i Value.na with
      | .str s => .ok (matchesDegasTs s)
      | _ => .error ()

/-- `_schema_1_normalize`: pivot to wide form, then parse the `Timestamp`
column (`df.columns.name = None` has no counterpart in this model). -/
def _schema_1_normalize (df : DF) : Except Unit DF :=
  match pivot_iontech df with
  | .error e => .error e
  | .ok df1 => mapColumnM df1 "Timestamp" toDatetimeCell

/-- `_schema_2_normalize`: parse the `Timestamp` column in place. -/
def _schema_2_normalize (df : DF) : Except Unit DF :=
  mapColumnM df "Timestamp" toDatetimeCell

/-- `SCHEMA_REGISTRY`, in registration order. -/
def SCHEMA_REGISTRY : List Schema :=
  [⟨"altasea iontech bl3t-25", _schema_1_pred, some _schema_1_normalize⟩,
   ⟨"degas system control datalog", _schema_2_pred, some _schema_2_normalize⟩]

-- ---------- Engine (src/reader.py lines 90-161)

/-- The detector loop of `detect_schema_from_df`, over an arbitrary
registry: first predicate returning true wins; a raising predicate is
skipped. -/
def detectSchemaIn : List Schema → DF → Option Schema
  | [], _ => none
  | s :: rest, df =>
    match s.predicate df with
    | .ok true => some s
    | .ok false => detectSchemaIn rest df
    | .error _ => detectSchemaIn rest df

/-- `detect_schema_from_df`: the detector applied to the global registry. -/
def detect_schema_from_df (df : DF) : Option Schema :=
  detectSchemaIn SCHEMA_REGISTRY df

/-- The persistent state the engine mutates: the `filenames.txt` log
(`none` when the file does not exist) and the `data.feather` cache. -/
structure IngestState where
  log : Option String
  cache : Option DF
deriving DecidableEq, Repr

/-- `_read_logged_filenames`: empty when the log file does not exist,
otherwise its lines, stripped, blank lines ignored. -/
def _read_logged_filenames (log : Option String) : List String :=
  match log with
  | none => []
  | some txt => ((splitStr txt '\n').map strStrip).filter (fun l => l ≠ "")

/-- `_write_logged_filenames`: replace the log with one name per line plus
a trailing newline (the temp-then-rename dance collapses to one atomic
replacement in this single-run model). -/
def _write_logged_filenames (files_list : List String) (st : IngestState) : IngestState :=
  { st with log := some (joinNewline files_list ++ "\n") }

/-- Placeholder for the `difflib.unified_diff` text (an external library;
no claim concerns the message contents, only the boolean). -/
def diffText (prev curr : List String) : String :=
  joinNewline (["--- previous", "+++ current"]
    ++ prev.map (fun l => "-" ++ l) ++ curr.map (fun l => "+" ++ l))

/-- `_detect_update`: unchanged exactly when the previously logged listing
equals the current one element-wise. -/
def _detect_update (log : Option String) (files_list : List String) : Bool × String :=
  let prev := _read_logged_filenames log
  let curr := files_list
  if prev = curr then (false, "No change, reading from feather...")
  else (true, diffText prev curr)

/-- The per-file loop of `_reload_from_source`: skip names containing
`.DS_Store`; load (a loader exception is fatal; the `None` returned for an
unhandled extension makes the subsequent `df.empty` attribute access
raise, also fatal); skip empty tables; detect; on no match log and skip;
on match run the normalizer, propagating its failure. -/
def collectTables (env : String → FileContent) (folder : String) :
    List String → Except Unit (List DF)
  | [] => .ok []
  | file :: rest =>
    if strContainsSub file ".DS_Store" then collectTables env folder rest
    else
      match _read_file (folder ++ "/" ++ file) (env (folder ++ "/" ++ file)) with
      | .error e => .error e
      | .ok none => .error ()
      | .ok (some df) =>
        if dfEmpty df then collectTables env folder rest
        else
          match detect_schema_from_df df with
          | none => collectTables env folder rest
          | some schema =>
            match schema.normalizer with
            | none =>
              match collectTables env folder rest with
              | .error e => .error e
              | .ok l => .ok (df :: l)
            | some norm =>
              match norm df with
              | .error e => .error e
              | .ok df2 =>
                match collectTables env folder rest with
                | .error e => .error e
                | .ok l => .ok (df2 :: l)

/-- Column union in order of first appearance (`pd.concat` outer join with
the default `sort=False`). -/
def unionCols : List (List String) → List String :=
  List.foldl (fun acc cs => acc ++ cs.filter (fun c => ¬ c ∈ acc)) []

/-- Reindex one row from its source columns to the union columns, filling
absent cells with NaN. -/
def reindexRow (srcCols dstCols : List String) (row : List Value) : List Value :=
  dstCols.map (fun c =>
    match srcCols.findIdx? (fun x => x = c) with
    | some i => row.getD i Value.na
    | none => Value.na)

/-- `pd.concat(dfs, join='outer')`: raises on an empty list of objects,
otherwise stacks all rows over the union of the columns. -/
def concatOuter (dfs : List DF) : Except Unit DF :=
  match dfs with
  | [] => .error ()
  | _ :: _ =>
    let cols := unionCols (dfs.map DF.cols)
    .ok ⟨cols, (dfs.map (fun d => d.rows.map (reindexRow d.cols cols))).flatten⟩

/-- Compare two rows by their cell in column `i` (the `by='Timestamp'`
sort key). -/
def rowTsLe (i : Nat) (r s : List Value) : Bool :=
  valLe (r.getD i Value.na) (s.getD i Value.na)

/-- The pure part of `_reload_from_source` after the log write: collect,
concatenate (error when nothing was collected), sort by `Timestamp`
(KeyError when the column is absent), drop exact duplicate rows. -/
def ingestResult (env : String → FileContent) (folder : String)
    (files_list : List String) : Except Unit DF :=
  match collectTables env folder files_list with
  | .error e => .error e
  | .ok dfs =>
    match concatOuter dfs with
    | .error e => .error e
    | .ok df0 =>
      match colIdx df0 "Timestamp" with
      | none => .error ()
      | some i => .ok ⟨df0.cols, dedupFirst (insSortBy (rowTsLe i) df0.rows)⟩

/-- `_reload_from_source`: write the new listing to the log first, then
ingest; only a fully successful run writes the cache
(`df.to_feather('data.feather')` is the last step). -/
def _reload_from_source (env : String → FileContent) (folder : String)
    (files_list : List String) (st : IngestState) : Except Unit DF × IngestState :=
  let st1 := _write_logged_filenames files_list st
  match ingestResult env folder files_list with
  | .error e => (.error e, st1)
  | .ok df => (.ok df, { st1 with cache := some df })

/-- `load_files`: fast path from the cache when the listing is unchanged,
full reload otherwise (a missing cache on the fast path raises). -/
def load_files (env : String → FileContent) (folder : String)
    (files_list : List String) (st : IngestState) : Except Unit DF × IngestState :=
  let upd := _detect_update st.log files_list
  if upd.1 then _reload_from_source env folder files_list st
  else
    match st.cache with
    | some df => (.ok df, st)
    | none => (.error (), st)

-- ---------- Remaining definitions used by the statements below

/-- Did a predicate evaluate to `true` (as opposed to `false` or a raised
exception)? -/
def isOkTrue : Except Unit Bool → Bool
  | .ok true => true
  | _ => false

/-- Relation between an input row and the corresponding output row of
`_schema_2_normalize`: same length, every cell outside column `i`
unchanged, and the column-`i` cell is the successful `to_datetime` parse
of the old cell. -/
def rowUpdateOK (i : Nat) (r r2 : List Value) : Prop :=
  r2.length = r.length ∧
  (∀ k, k ≠ i → r2.getD k Value.na = r.getD k Value.na) ∧
  Except.ok (r2.getD i Value.na) = toDatetimeCell (r.getD i Value.na)

/-- Fixture: a folder holding one wide-form (degas) csv file. -/
def envDegas : String → FileContent := fun p =>
  if p = "d/a.csv" then ⟨["Timestamp,V", "2024-01-01 00:00:00.0,5"], .error ()⟩
  else ⟨[], .error ()⟩

/-- Fixture: a folder holding one long-form (iontech) csv file that lacks
the `$RT_DIS$` placeholder variable, so its normalization raises. -/
def envIonBroken : String → FileContent := fun p =>
  if p = "d/b.csv" then
    ⟨["VarName,TimeString,VarValue", "X,2024-01-01 00:00:00.0,1"], .error ()⟩
  else ⟨[], .error ()⟩

-- ---------- Generic lemmas: keep-first dedup

theorem dedupAux_sublist [DecidableEq α] (l : List α) :
    ∀ seen : List α, List.Sublist (dedupAux seen l) l := by
  induction l with
  | nil => intro seen; simp [dedupAux]
  | cons a l ih =>
    intro seen
    rw [dedupAux]
    by_cases h : a ∈ seen
    · simpa [h] using (ih seen).cons a
    · simpa [h] using (ih (a :: seen)).cons₂ a

theorem mem_dedupAux [DecidableEq α] (x : α) (l : List α) :
    ∀ seen : List α, x ∈ dedupAux seen l ↔ x ∈ l ∧ x ∉ seen := by
  induction l with
  | nil => intro seen; simp [dedupAux]
  | cons a l ih =>
    intro seen
    rw [dedupAux]
    by_cases h : a ∈ seen
    · rw [if_pos h, ih seen]
      constructor
      · rintro ⟨hl, hs⟩; exact ⟨List.mem_cons_of_mem a hl, hs⟩
      · rintro ⟨hx, hs⟩
        rcases List.mem_cons.mp hx with rfl | hl
        · exact absurd h hs
        · exact ⟨hl, hs⟩
    · rw [if_neg h]
      constructor
      · intro hx
        rcases List.mem_cons.mp hx with rfl | hx2
        · exact ⟨List.mem_cons_self x l, h⟩
        · obtain ⟨hl, hs⟩ := (ih (a :: seen)).mp hx2
          exact ⟨List.mem_cons_of_mem a hl, fun hxs => hs (List.mem_cons_of_mem a hxs)⟩
      · rintro ⟨hx, hs⟩
        rcases List.mem_cons.mp hx with rfl | hl
        · exact List.mem_cons_self x _
        · by_cases hxa : x = a
          · subst hxa; exact List.mem_cons_self x _
          · refine List.mem_cons_of_mem a ((ih (a :: seen)).mpr ⟨hl, ?_⟩)
            intro hxs
            rcases List.mem_cons.mp hxs with h1 | h2
            · exact hxa h1
            · exact hs h2

theorem pairwise_ne_dedupAux [DecidableEq α] (l : List α) :
    ∀ seen : List α, (dedupAux seen l).Pairwise (fun x y => x ≠ y) := by
  induction l with
  | nil => intro seen; simp [dedupAux]
  | cons a l ih =>
    intro seen
    rw [dedupAux]
    by_cases h : a ∈ seen
    · simpa [h] using ih seen
    · rw [if_neg h]
      refine List.Pairwise.cons ?_ (ih (a :: seen))
      intro b hb
      have := (mem_dedupAux b l (a :: seen)).mp hb
      intro hab
      exact this.2 (by simp [hab])

theorem mem_dedupFirst [DecidableEq α] (x : α) (l : List α) :
    x ∈ dedupFirst l ↔ x ∈ l := by
  rw [dedupFirst, mem_dedupAux]; simp

theorem pairwise_ne_dedupFirst [DecidableEq α] (l : List α) :
    (dedupFirst l).Pairwise (fun x y => x ≠ y) := pairwise_ne_dedupAux l []

theorem dedupFirst_sublist [DecidableEq α] (l : List α) :
    List.Sublist (dedupFirst l) l := dedupAux_sublist l []

-- ---------- Generic lemmas: insertion sort

theorem mem_insertSortedBy (le : α → α → Bool) (a x : α) (l : List α) :
    x ∈ insertSortedBy le a l ↔ x = a ∨ x ∈ l := by
  induction l with
  | nil => simp [insertSortedBy]
  | cons b l ih =>
    rw [insertSortedBy]
    by_cases h : le a b = true
    · simp [h]
    · simp only [if_neg h, List.mem_cons, ih]
      tauto

theorem mem_insSortBy (le : α → α → Bool) (x : α) (l : List α) :
    x ∈ insSortBy le l ↔ x ∈ l := by
  induction l with
  | nil => simp [insSortBy]
  | cons a l ih => rw [insSortBy, mem_insertSortedBy, ih]; simp

theorem pairwise_insertSortedBy (le : α → α → Bool)
    (htrans : ∀ a b c, le a b = true → le b c = true → le a c = true)
    (htotal : ∀ a b, le a b = true ∨ le b a = true)
    (a : α) (l : List α) (h : l.Pairwise (fun x y => le x y = true)) :
    (insertSortedBy le a l).Pairwise (fun x y => le x y = true) := by
  induction l with
  | nil => simp [insertSortedBy]
  | cons b l ih =>
    rw [List.pairwise_cons] at h
    rw [insertSortedBy]
    by_cases hab : le a b = true
    · rw [if_pos hab]
      refine List.Pairwise.cons ?_ (List.Pairwise.cons h.1 h.2)
      intro x hx
      rcases List.mem_cons.mp hx with rfl | hx2
      · exact hab
      · exact htrans a b x hab (h.1 x hx2)
    · rw [if_neg hab]
      have hba : le b a = true := (htotal a b).resolve_left hab
      refine List.Pairwise.cons ?_ (ih h.2)
      intro x hx
      rcases (mem_insertSortedBy le a x l).mp hx with rfl | hx
      · exact hba
      · exact h.1 x hx

theorem pairwise_insSortBy (le : α → α → Bool)
    (htrans : ∀ a b c, le a b = true → le b c = true → le a c = true)
    (htotal : ∀ a b, le a b = true ∨ le b a = true) (l : List α) :
    (insSortBy le l).Pairwise (fun x y => le x y = true) := by
  induction l with
  | nil => simp [insSortBy]
  | cons a l ih => exact pairwise_insertSortedBy le htrans htotal a _ ih

-- ---------- Order lemmas for the sort key

theorem lexLe_total : ∀ a b : List Char, lexLe a b = true ∨ lexLe b a = true
  | [], _ => Or.inl rfl
  | _ :: _, [] => Or.inr rfl
  | a :: as, b :: bs => by
    by_cases h : a = b
    · subst h
      simpa [lexLe] using lexLe_total as bs
    · have h2 : ¬ b = a := fun e => h e.symm
      simp only [lexLe, if_neg h, if_neg h2, decide_eq_true_eq]
      exact lt_or_gt_of_ne h

theorem lexLe_trans : ∀ a b c : List Char,
    lexLe a b = true → lexLe b c = true → lexLe a c = true
  | [], _, _, _, _ => rfl
  | a :: as, [], _, hab, _ => by simp [lexLe] at hab
  | _ :: _, _ :: _, [], _, hbc => by simp [lexLe] at hbc
  | a :: as, b :: bs, c :: cs, hab, hbc => by
    by_cases hab1 : a = b <;> by_cases hbc1 : b = c
    · subst hab1; subst hbc1
      simp only [lexLe, if_pos rfl] at *
      exact lexLe_trans as bs cs hab hbc
    · subst hab1
      simpa [lexLe, hbc1] using hbc
    · subst hbc1
      simpa [lexLe, hab1] using hab
    · simp only [lexLe, if_neg hab1, if_neg hbc1, decide_eq_true_eq] at hab hbc
      have hac : a < c := lt_trans hab hbc
      simp [lexLe, ne_of_lt hac, hac]

theorem valLe_total (a b : Value) : valLe a b = true ∨ valLe b a = true := by
  cases a <;> cases b <;> simp only [valLe, valRank, decide_eq_true_eq] <;>
    first
      | exact Int.le_total _ _
      | exact Nat.le_total _ _
      | exact lexLe_total _ _
      | omega

theorem valLe_trans (a b c : Value) (hab : valLe a b = true) (hbc : valLe b c = true) :
    valLe a c = true := by
  cases a <;> cases b <;> cases c <;>
    simp only [valLe, valRank, decide_eq_true_eq] at hab hbc ⊢ <;>
    first
      | rfl
      | omega
      | exact le_trans hab hbc
      | exact lexLe_trans _ _ _ hab hbc

theorem rowTsLe_total (i : Nat) (r s : List Value) :
    rowTsLe i r s = true ∨ rowTsLe i s r = true := valLe_total _ _

theorem rowTsLe_trans (i : Nat) (r s t : List Value)
    (h1 : rowTsLe i r s = true) (h2 : rowTsLe i s t = true) : rowTsLe i r t = true :=
  valLe_trans _ _ _ h1 h2

-- ---------- Detector lemmas

theorem detectSchemaIn_eq_findFirst (registry : List Schema) (df : DF) :
    detectSchemaIn registry df = registry.find? (fun s => isOkTrue (s.predicate df)) := by
  induction registry with
  | nil => rfl
  | cons s rest ih =>
    cases h : s.predicate df with
    | error e => simp [detectSchemaIn, List.find?, h, isOkTrue, ih]
    | ok b => cases b <;> simp [detectSchemaIn, List.find?, h, isOkTrue, ih]

/-- Claim C1: for every registry (ordered list of schema descriptors) and
every raw table, schema detection returns the first descriptor in
registration order whose predicate evaluates to `true` on the table, and
returns `none` (NoMatch) exactly when no descriptor's predicate evaluates
to `true` on it. -/
theorem detect_returns_first_true_predicate (registry : List Schema) (df : DF) :
    detectSchemaIn registry df = registry.find? (fun s => isOkTrue (s.predicate df)) ∧
    (detectSchemaIn registry df = none ↔
      ∀ s ∈ registry, isOkTrue (s.predicate df) = false) := by
  refine ⟨detectSchemaIn_eq_findFirst registry df, ?_⟩
  rw [detectSchemaIn_eq_findFirst registry df, List.find?_eq_none]
  simp

/-- Claim C9: replacing a descriptor's always-raising predicate by the
always-false predicate leaves detection unchanged on every input table. -/
theorem raising_pred_equals_false_pred (pre post : List Schema) (nm : String)
    (p : DF → Except Unit Bool) (norm : Option (DF → Except Unit DF))
    (hp : ∀ t, p t = .error ()) (df : DF) :
    detectSchemaIn (pre ++ ⟨nm, p, norm⟩ :: post) df =
      detectSchemaIn (pre ++ ⟨nm, fun _ => .ok false, norm⟩ :: post) df := by
  induction pre with
  | nil => simp [detectSchemaIn, hp df]
  | cons s rest ih =>
    simp only [List.cons_append]
    cases h : s.predicate df with
    | error e => simp [detectSchemaIn, h, ih]
    | ok b => cases b <;> simp [detectSchemaIn, h, ih]

/-- Witness for C9 at a concrete registry and table. -/
theorem raising_pred_equals_false_pred_witness :
    detectSchemaIn [⟨"broken", fun _ => Except.error (), none⟩] ⟨[], []⟩ =
      detectSchemaIn [⟨"broken", fun _ => Except.ok false, none⟩] ⟨[], []⟩ :=
  raising_pred_equals_false_pred [] [] "broken" (fun _ => Except.error ()) none
    (fun _ => rfl) ⟨[], []⟩

-- ---------- Change detector

/-- Claim C6: `_detect_update` reports unchanged exactly when the
previously persisted listing (empty when no log file exists) equals the
current listing element-wise; in particular previous `[a, b]` against
current `[b, a]` reports changed. -/
theorem detect_update_unchanged_iff :
    (∀ (log : Option String) (files_list : List String),
      (_detect_update log files_list).1 = false ↔
        _read_logged_filenames log = files_list) ∧
    (_detect_update (some "a\nb\n") ["b", "a"]).1 = true := by
  constructor
  · intro log files_list
    by_cases h : _read_logged_filenames log = files_list <;> simp [_detect_update, h]
  · rfl

-- ---------- Loader: unknown extension (C7) and txt truncation (C10)

/-- Claim C7 (code bug): a path whose extension matches no parsing
strategy makes `_read_file` fall off the end and return `None` — a
non-error value — instead of raising the format error its own docstring
and return annotation promise. -/
theorem read_file_unknown_ext_returns_none :
    _read_file "data.xlsx" ⟨[], .error ()⟩ = .ok none := rfl

-- ---------- Ingestion: empty collection (C2) and normalizer failure (C3)

/-- Claim C2 (code bug): ingesting a folder in which zero files yield a
normalized table reaches `pd.concat` on an empty collection, which raises
instead of producing an empty canonical table. -/
theorem reload_empty_collection_raises :
    (_reload_from_source (fun _ => ⟨[], .error ()⟩) "d" [] ⟨none, none⟩).1 =
      .error () := rfl

/-- Counterexample to claim C3: on a long-form table holding exactly the
two rows (t1, X, 1) and (t1, Y, 2) the long-form normalizer raises (the
unconditional `drop(columns=["$RT_DIS$"])` fails, that column being
absent) instead of returning the single-row wide table the claim
promises. -/
theorem schema1_normalize_two_row_counterexample :
    _schema_1_normalize ⟨["VarName", "TimeString", "VarValue"],
      [[.str "X", .str "2024-01-01 00:00:00.0", .num 1],
       [.str "Y", .str "2024-01-01 00:00:00.0", .num 2]]⟩ = .error () := rfl

/-- Claim C3 as amended: when the long-form table additionally carries the
`$RT_DIS$` placeholder variable that the normalizer drops, the two
measurement rows (t1, X, 1) and (t1, Y, 2) are pivoted into the single
wide row (t1, X = 1, Y = 2). -/
theorem schema1_normalize_long_form_amended :
    _schema_1_normalize ⟨["VarName", "TimeString", "VarValue"],
      [[.str "X", .str "2024-01-01 00:00:00.0", .num 1],
       [.str "Y", .str "2024-01-01 00:00:00.0", .num 2],
       [.str "$RT_DIS$", .str "2024-01-01 00:00:00.0", .na]]⟩ =
    .ok ⟨["Timestamp", "X", "Y"], [[.ts 202401010000000, .num 1, .num 2]]⟩ := rfl

-- ---------- Ingestion: fatal errors never write the cache (C4)

/-- Claim C4: whenever `_reload_from_source` ends in an error — a
normalization failure or any other fatal per-run error — the error is the
value returned to the caller and the cached canonical table is left
exactly as it was (`to_feather` is only reached on full success). -/
theorem reload_error_keeps_cache (env : String → FileContent) (folder : String)
    (files_list : List String) (st : IngestState) (e : Unit)
    (h : (_reload_from_source env folder files_list st).1 = .error e) :
    ((_reload_from_source env folder files_list st).2).cache = st.cache := by
  cases hi : ingestResult env folder files_list with
  | error e2 => simp [_reload_from_source, hi, _write_logged_filenames]
  | ok df => simp [_reload_from_source, hi] at h

/-- Witness for C4: one iontech-format file whose normalization raises
(no `$RT_DIS$` variable); the run fails and the previously cached table
survives untouched. -/
theorem reload_error_keeps_cache_witness :
    (_reload_from_source envIonBroken "d" ["b.csv"]
        ⟨some "old", some ⟨["Timestamp"], []⟩⟩).1 = .error () ∧
    ((_reload_from_source envIonBroken "d" ["b.csv"]
        ⟨some "old", some ⟨["Timestamp"], []⟩⟩).2).cache = some ⟨["Timestamp"], []⟩ :=
  ⟨rfl, reload_error_keeps_cache envIonBroken "d" ["b.csv"]
    ⟨some "old", some ⟨["Timestamp"], []⟩⟩ () rfl⟩

-- ---------- Ingestion: result invariants (C5)

/-- Claim C5: every successful ingestion run returns a table whose rows
are sorted ascending on the `Timestamp` column, in which no two rows agree
in every column, and which retains (as to membership) every row of the
concatenation of the normalized tables — so rows sharing a timestamp but
differing in some measurement survive deduplication. -/
theorem reload_ok_sorted_unique_retained (env : String → FileContent) (folder : String)
    (files_list : List String) (st : IngestState) (df' : DF) (st' : IngestState)
    (h : _reload_from_source env folder files_list st = (.ok df', st')) :
    ∃ i, colIdx df' "Timestamp" = some i ∧
      df'.rows.Pairwise (fun r s => rowTsLe i r s = true) ∧
      df'.rows.Pairwise (fun r s => r ≠ s) ∧
      ∀ dfs df0, collectTables env folder files_list = .ok dfs →
        concatOuter dfs = .ok df0 → ∀ r, r ∈ df'.rows ↔ r ∈ df0.rows := by
  have hi : ingestResult env folder files_list = .ok df' := by
    cases hi2 : ingestResult env folder files_list with
    | error e => simp [_reload_from_source, hi2] at h
    | ok df =>
      simp only [_reload_from_source, hi2, Prod.mk.injEq, Except.ok.injEq] at h
      rw [h.1]
  cases hc : collectTables env folder files_list with
  | error e => simp [ingestResult, hc] at hi
  | ok dfs =>
    cases ho : concatOuter dfs with
    | error e => simp [ingestResult, hc, ho] at hi
    | ok df0 =>
      cases hx : colIdx df0 "Timestamp" with
      | none => simp [ingestResult, hc, ho, hx] at hi
      | some i =>
        have hdf : df' = ⟨df0.cols, dedupFirst (insSortBy (rowTsLe i) df0.rows)⟩ := by
          simp only [ingestResult, hc, ho, hx, Except.ok.injEq] at hi
          exact hi.symm
        refine ⟨i, ?_, ?_, ?_, ?_⟩
        · rw [hdf]
          simpa [colIdx] using hx
        · rw [hdf]
          exact (pairwise_insSortBy (rowTsLe i) (rowTsLe_trans i) (rowTsLe_total i)
            df0.rows).sublist (dedupFirst_sublist _)
        · rw [hdf]
          exact pairwise_ne_dedupFirst _
        · intro dfs2 df02 hc2 ho2 r
          injection hc2 with h2
          subst h2
          rw [ho] at ho2
          injection ho2 with h3
          subst h3
          rw [hdf]
          rw [show (DF.mk df0.cols (dedupFirst (insSortBy (rowTsLe i) df0.rows))).rows =
                dedupFirst (insSortBy (rowTsLe i) df0.rows) from rfl,
              mem_dedupFirst, mem_insSortBy]

/-- Witness for C5: a successful run over one wide-form file. -/
theorem reload_ok_sorted_unique_retained_witness :
    _reload_from_source envDegas "d" ["a.csv"] ⟨none, none⟩ =
      (.ok ⟨["Timestamp", "V"], [[.ts 202401010000000, .str "5"]]⟩,
       ⟨some "a.csv\n", some ⟨["Timestamp", "V"], [[.ts 202401010000000, .str "5"]]⟩⟩) ∧
    (∃ i, colIdx ⟨["Timestamp", "V"], [[.ts 202401010000000, .str "5"]]⟩ "Timestamp" =
        some i ∧
      ([[Value.ts 202401010000000, Value.str "5"]] : List (List Value)).Pairwise
        (fun r s => rowTsLe i r s = true) ∧
      ([[Value.ts 202401010000000, Value.str "5"]] : List (List Value)).Pairwise
        (fun r s => r ≠ s) ∧
      ∀ dfs df0, collectTables envDegas "d" ["a.csv"] = .ok dfs →
        concatOuter dfs = .ok df0 →
        ∀ r, r ∈ ([[Value.ts 202401010000000, Value.str "5"]] : List (List Value)) ↔
          r ∈ df0.rows) :=
  ⟨rfl, reload_ok_sorted_unique_retained envDegas "d" ["a.csv"] ⟨none, none⟩
    ⟨["Timestamp", "V"], [[.ts 202401010000000, .str "5"]]⟩
    ⟨some "a.csv\n", some ⟨["Timestamp", "V"], [[.ts 202401010000000, .str "5"]]⟩⟩ rfl⟩

-- ---------- Lemmas about updating one cell of a row (for C8)

theorem getD_set_ne (r : List Value) (v : Value) :
    ∀ i k : Nat, k ≠ i → (r.set i v).getD k Value.na = r.getD k Value.na := by
  induction r with
  | nil => intro i k _; rfl
  | cons a l ih =>
    intro i k hki
    cases i with
    | zero =>
      cases k with
      | zero => exact absurd rfl hki
      | succ k2 => rfl
    | succ i2 =>
      cases k with
      | zero => rfl
      | succ k2 =>
        simp only [List.set_cons_succ, List.getD_cons_succ]
        exact ih i2 k2 (fun hk => hki (congrArg Nat.succ hk))

theorem getD_set_lt (r : List Value) (v : Value) :
    ∀ i : Nat, i < r.length → (r.set i v).getD i Value.na = v := by
  induction r with
  | nil => intro i hi; simp at hi
  | cons a l ih =>
    intro i hi
    cases i with
    | zero => rfl
    | succ i2 =>
      simp only [List.set_cons_succ, List.getD_cons_succ]
      exact ih i2 (by simpa using hi)

theorem getD_default_of_le (r : List Value) :
    ∀ i : Nat, r.length ≤ i → r.getD i Value.na = Value.na := by
  induction r with
  | nil => intro i _; rfl
  | cons a l ih =>
    intro i hi
    cases i with
    | zero => simp at hi
    | succ i2 =>
      simp only [List.getD_cons_succ]
      exact ih i2 (by simpa using hi)

theorem rowUpdate_spec (i : Nat) (r : List Value)
    (h : isOkE (toDatetimeCell (r.getD i Value.na)) = true) :
    ∃ v, toDatetimeCell (r.getD i Value.na) = .ok v ∧ rowUpdateOK i r (r.set i v) := by
  cases hv : toDatetimeCell (r.getD i Value.na) with
  | error e => rw [hv] at h; simp [isOkE] at h
  | ok v =>
    refine ⟨v, rfl, List.length_set r i v, fun k hk => getD_set_ne r v i k hk, ?_⟩
    by_cases hlen : i < r.length
    · rw [getD_set_lt r v i hlen, hv]
    · have hge : r.length ≤ i := Nat.le_of_not_lt hlen
      rw [List.set_eq_of_length_le hge, getD_default_of_le r i hge]
      rfl

theorem mapME_toDatetime_forall2 (i : Nat) (rows : List (List Value))
    (h : rows.all (fun r => isOkE (toDatetimeCell (r.getD i Value.na))) = true) :
    ∃ rows2,
      mapME (fun r =>
        match toDatetimeCell (r.getD i Value.na) with
        | .error e => .error e
        | .ok v => .ok (r.set i v)) rows = .ok rows2 ∧
      List.Forall₂ (rowUpdateOK i) rows rows2 := by
  induction rows with
  | nil => exact ⟨[], rfl, List.Forall₂.nil⟩
  | cons r rest ih =>
    rw [List.all_cons, Bool.and_eq_true] at h
    obtain ⟨v, hv, hok⟩ := rowUpdate_spec i r h.1
    obtain ⟨rows2, hm, hf⟩ := ih h.2
    refine ⟨r.set i v :: rows2, ?_, List.Forall₂.cons hok hf⟩
    rw [mapME, hv, hm]

/-- Claim C8: on any table with a `Timestamp` column (position `i`) all of
whose `Timestamp` cells parse, the wide-form normalizer succeeds and
changes nothing but that column: column names are untouched, every row
keeps its position and length, every cell outside column `i` is unchanged,
and the column-`i` cell becomes its parsed chronological value. -/
theorem schema2_normalize_touches_only_timestamp (df : DF) (i : Nat)
    (hi : colIdx df "Timestamp" = some i)
    (hall : df.rows.all (fun r => isOkE (toDatetimeCell (r.getD i Value.na))) = true) :
    ∃ rows2, _schema_2_normalize df = .ok ⟨df.cols, rows2⟩ ∧
      List.Forall₂ (rowUpdateOK i) df.rows rows2 := by
  obtain ⟨rows2, hm, hf⟩ := mapME_toDatetime_forall2 i df.rows hall
  refine ⟨rows2, ?_, hf⟩
  rw [_schema_2_normalize, mapColumnM, hi]
  simp only [hm]

/-- Witness for C8 on a concrete wide-form table. -/
theorem schema2_normalize_touches_only_timestamp_witness :
    colIdx ⟨["Timestamp", "V"], [[.str "2024-01-01 00:00:00.0", .num 7]]⟩ "Timestamp" =
      some 0 ∧
    (DF.rows ⟨["Timestamp", "V"], [[.str "2024-01-01 00:00:00.0", .num 7]]⟩).all
      (fun r => isOkE (toDatetimeCell (r.getD 0 Value.na))) = true ∧
    (∃ rows2,
      _schema_2_normalize ⟨["Timestamp", "V"], [[.str "2024-01-01 00:00:00.0", .num 7]]⟩ =
        .ok ⟨["Timestamp", "V"], rows2⟩ ∧
      List.Forall₂ (rowUpdateOK 0)
        [[Value.str "2024-01-01 00:00:00.0", Value.num 7]] rows2) :=
  ⟨rfl, rfl,
    schema2_normalize_touches_only_timestamp
      ⟨["Timestamp", "V"], [[.str "2024-01-01 00:00:00.0", .num 7]]⟩ 0 rfl rfl⟩

-- ---------- Loader: first `.txt` strategy truncates to 4 rows (C10)

theorem read_csv_ok_shape (lines : List String) (n : Option Nat) (df : DF)
    (h : read_csv lines n = .ok df) :
    ∃ header dl, lines = header :: dl ∧
      df.cols = splitStr header ',' ∧
      df.rows = (match n with | some k => dl.take k | none => dl).map
        (fun l => (splitStr l ',').map Value.str) := by
  cases lines with
  | nil => simp [read_csv] at h
  | cons header dl =>
    refine ⟨header, dl, rfl, ?_, ?_⟩ <;>
      · simp only [read_csv] at h
        split at h
        · injection h with h2
          rw [← h2]
        · simp at h

/-- Claim C10: on a `.txt` file whose first parsing strategy (default
delimiter inference with `nrows=4`) succeeds, `_read_file` returns that
parse — at most the first 4 data rows of the file, however many the file
holds — and never consults the full-file fallback strategy. -/
theorem read_file_txt_first_strategy_truncates (p : String) (fc : FileContent) (df : DF)
    (hext : ext_of p = ".txt")
    (hok : read_csv fc.lines (some 4) = .ok df) :
    _read_file p fc = .ok (some df) ∧ df.rows.length ≤ 4 ∧
    ∀ dfF, read_csv fc.lines none = .ok dfF → df.rows = dfF.rows.take 4 := by
  obtain ⟨header, dl, hl, _hc, hr⟩ := read_csv_ok_shape fc.lines (some 4) df hok
  refine ⟨?_, ?_, ?_⟩
  · rw [_read_file, hext]
    simp [hok]
  · rw [hr]
    simp [List.length_take]
  · intro dfF hF
    obtain ⟨header2, dl2, hl2, _hc2, hr2⟩ := read_csv_ok_shape fc.lines none dfF hF
    rw [hl] at hl2
    injection hl2 with e1 e2
    subst e1
    subst e2
    have hr3 : df.rows = (dl.take 4).map (fun l => (splitStr l ',').map Value.str) := hr
    have hr4 : dfF.rows = dl.map (fun l => (splitStr l ',').map Value.str) := hr2
    rw [hr3, hr4]
    exact List.map_take _ dl 4

/-- Witness for C10: a six-data-row text file parses to exactly its first
four rows. -/
theorem read_file_txt_first_strategy_truncates_witness :
    ext_of "d/a.txt" = ".txt" ∧
    read_csv ["h1,h2", "1,2", "3,4", "5,6", "7,8", "9,10", "11,12"] (some 4) =
      .ok ⟨["h1", "h2"],
        [[.str "1", .str "2"], [.str "3", .str "4"],
         [.str "5", .str "6"], [.str "7", .str "8"]]⟩ ∧
    (_read_file "d/a.txt" ⟨["h1,h2", "1,2", "3,4", "5,6", "7,8", "9,10", "11,12"],
        .error ()⟩ =
      .ok (some ⟨["h1", "h2"],
        [[.str "1", .str "2"], [.str "3", .str "4"],
         [.str "5", .str "6"], [.str "7", .str "8"]]⟩) ∧
      (DF.rows ⟨["h1", "h2"],
        [[.str "1", .str "2"], [.str "3", .str "4"],
         [.str "5", .str "6"], [.str "7", .str "8"]]⟩).length ≤ 4 ∧
      ∀ dfF, read_csv ["h1,h2", "1,2", "3,4", "5,6", "7,8", "9,10", "11,12"] none =
          .ok dfF →
        (DF.rows ⟨["h1", "h2"],
          [[.str "1", .str "2"], [.str "3", .str "4"],
           [.str "5", .str "6"], [.str "7", .str "8"]]⟩) = dfF.rows.take 4) :=
  ⟨rfl, rfl,
    read_file_txt_first_strategy_truncates "d/a.txt"
      ⟨["h1,h2", "1,2", "3,4", "5,6", "7,8", "9,10", "11,12"], .error ()⟩
      ⟨["h1", "h2"],
        [[.str "1", .str "2"], [.str "3", .str "4"],
         [.str "5", .str "6"], [.str "7", .str "8"]]⟩ rfl rfl⟩
